import Mathlib

/-!
Verification of the retry-retry library (src/retry-retry.js) against its
natural-language specification.

The shallow embedding models the `retry` function (lines 77-120) as a
fuel-indexed loop over an explicit configuration record. A task is a
function from the 0-based attempt index to a settled result; the clock is
a function from "number of clock reads so far" to a millisecond reading
(the code reads the clock once at start, line 87, and once per time-budget
check, line 109). The run returns the settled outcome together with an
event trace recording every task invocation and every pause actually
performed (line 116), so that properties about invocation counts and about
pauses taken or skipped can be stated exactly.
-/

namespace RetryRetry

/-- Errors a task promise can be rejected with: the reserved `Retry`
singleton (line 35 of the source), or any other caller-level error value,
distinguished by an identifier so that identity preservation is equality. -/
inductive JsError where
  | retryMarker : JsError
  | custom : Nat → JsError
deriving DecidableEq, Repr

/-- Result of one settled task invocation: the promise resolved with a
value, or was rejected with an error. -/
inductive TaskResult (α : Type) where
  | resolved : α → TaskResult α
  | rejected : JsError → TaskResult α
deriving DecidableEq, Repr

/-- The `retryStrategy` parameter as the code treats it (lines 102-105):
either a string, compared against the literals "linear" and "exponential",
or a function of the 1-based number of tries so far. Any other string is
invoked as a function at line 105 and raises a runtime type error. -/
inductive RetryStrategy where
  | str : String → RetryStrategy
  | fn : (Int → Int) → RetryStrategy

/-- The optional `params` object of `retry(task, params = {})`: absent
fields are `none` (the `undefined` of the code). -/
structure Params where
  pauseMs : Option Int := none
  maxTries : Option Int := none
  maxTotalTimeMs : Option Int := none
  retryOn : Option (JsError → Bool) := none
  retryStrategy : Option RetryStrategy := none

/-- The unpacked configuration after the defaulting and clamping of
lines 81-85. -/
structure Config where
  pauseMs : Int
  maxTries : Int
  maxTotalTimeMs : Int
  retryOn : JsError → Bool
  retryStrategy : RetryStrategy

/-- Embedding of `Math.max(0, params.x) || 0` (lines 81-83): an absent
field gives `NaN` under `Math.max` and `NaN || 0` is `0`; a present value
is clamped to be non-negative, and `0 || 0` is `0`. -/
def clampNum : Option Int → Int
  | none => 0
  | some v => max 0 v

/-- The default retry predicate `e => e === Retry` (line 84). -/
def defaultRetryOn : JsError → Bool := fun e => e == JsError.retryMarker

/-- Parameter unpacking of lines 81-85: clamp the numeric fields and
default `retryOn` and `retryStrategy`. -/
def normalizeParams (p : Params) : Config where
  pauseMs := clampNum p.pauseMs
  maxTries := clampNum p.maxTries
  maxTotalTimeMs := clampNum p.maxTotalTimeMs
  retryOn := p.retryOn.getD defaultRetryOn
  retryStrategy := p.retryStrategy.getD (.str "linear")

/-- Pause computation of lines 102-105. A string strategy is compared to
"linear", then "exponential"; any other string reaches the `else` branch
and is called as a function, which raises a TypeError at run time, modeled
as `Except.error`. A function strategy receives `tryIdx + 1` and its
result is clamped to be non-negative. -/
def computePause (rs : RetryStrategy) (pauseMs : Int) (tryIdx : Nat) : Except String Int :=
  match rs with
  | .str s =>
    if s = "linear" then .ok pauseMs
    else if s = "exponential" then .ok (2 ^ tryIdx * pauseMs)
    else .error s
  | .fn f => .ok (max 0 (f (tryIdx + 1)))

/-- Outcome of a run of `retry`: resolved with the task value, rejected
with the own error of the task, rejected with the `LimitReached` singleton
(lines 111 and 119), or a runtime TypeError from invoking a non-function
strategy (line 105). -/
inductive Outcome (α : Type) where
  | success : α → Outcome α
  | failure : JsError → Outcome α
  | limitReached : Outcome α
  | typeError : String → Outcome α
deriving DecidableEq, Repr

/-- Observable events of a run: a task invocation at a given 0-based try
index (line 93), or a pause of the given length actually awaited
(line 116). -/
inductive Event where
  | invoke : Nat → Event
  | pause : Int → Event
deriving DecidableEq, Repr

/-- The retry loop of lines 88-119, fuel-indexed. Arguments after the
fixed ones: remaining fuel, `tryIdx`, and the index of the next clock
read. Each iteration checks the loop guard `maxTries == 0 || tryIdx <
maxTries`, invokes the task, short-circuits on success, propagates a
non-retryable error, computes the pause, performs the time-budget check
when `maxTotalTimeMs > 0` (reading the clock once), and otherwise pauses
and continues. Fuel exhaustion yields `none` (the run was cut off, which
the real loop never does on its own). -/
def retryLoop {α : Type} (cfg : Config) (task : Nat → TaskResult α) (clock : Nat → Int)
    (startTimeMs : Int) : Nat → Nat → Nat → Option (Outcome α) × List Event
  | 0, _, _ => (none, [])
  | fuel + 1, tryIdx, clockIdx =>
    if cfg.maxTries = 0 ∨ (tryIdx : Int) < cfg.maxTries then
      match task tryIdx with
      | .resolved v => (some (.success v), [.invoke tryIdx])
      | .rejected error =>
        if cfg.retryOn error = false then
          (some (.failure error), [.invoke tryIdx])
        else
          match computePause cfg.retryStrategy cfg.pauseMs tryIdx with
          | .error s => (some (.typeError s), [.invoke tryIdx])
          | .ok actualPauseMs =>
            if 0 < cfg.maxTotalTimeMs then
              if cfg.maxTotalTimeMs < clock clockIdx - startTimeMs + actualPauseMs then
                (some .limitReached, [.invoke tryIdx])
              else
                let rest := retryLoop cfg task clock startTimeMs fuel (tryIdx + 1) (clockIdx + 1)
                (rest.1, .invoke tryIdx :: .pause actualPauseMs :: rest.2)
            else
              let rest := retryLoop cfg task clock startTimeMs fuel (tryIdx + 1) clockIdx
              (rest.1, .invoke tryIdx :: .pause actualPauseMs :: rest.2)
    else
      (some .limitReached, [])

/-- Full run of the loop from an already unpacked configuration: the start
timestamp is the first clock read (line 87), the loop starts at
`tryIdx = 0` with the next clock read being read number 1. -/
def retryWithConfig {α : Type} (cfg : Config) (task : Nat → TaskResult α)
    (clock : Nat → Int) (fuel : Nat) : Option (Outcome α) × List Event :=
  retryLoop cfg task clock (clock 0) fuel 0 1

/-- The exported `retry(task, params)` (lines 77-120): unpack the
parameters, then run the loop. -/
def retryRun {α : Type} (task : Nat → TaskResult α) (params : Params)
    (clock : Nat → Int) (fuel : Nat) : Option (Outcome α) × List Event :=
  retryWithConfig (normalizeParams params) task clock fuel

/-- Number of task invocations recorded in a trace. -/
def invokeCount : List Event → Nat
  | [] => 0
  | .invoke _ :: rest => invokeCount rest + 1
  | .pause _ :: rest => invokeCount rest

/-- Trace produced by `d` consecutive attempts starting at try index `t`
that all signal retry and pause, where `p j` is the pause after attempt
`j`. -/
def retryTrace (p : Nat → Int) : Nat → Nat → List Event
  | _, 0 => []
  | t, d + 1 => .invoke t :: .pause (p t) :: retryTrace p (t + 1) d

theorem invokeCount_append (a b : List Event) :
    invokeCount (a ++ b) = invokeCount a + invokeCount b := by
  induction a with
  | nil => simp [invokeCount]
  | cons x rest ih =>
    cases x with
    | invoke i =>
      simp [invokeCount, ih]
      omega
    | pause m => simp [invokeCount, ih]

theorem invokeCount_retryTrace (p : Nat → Int) :
    ∀ d t, invokeCount (retryTrace p t d) = d := by
  intro d
  induction d with
  | zero => intro t; simp [retryTrace, invokeCount]
  | succ d ih => intro t; simp [retryTrace, invokeCount, ih]

/-- Unrolling lemma: if the first `d` iterations starting at try index `t`
(next clock read `c`) all invoke the task, get a retry signal, compute a
pause, pass any time-budget check, and pause, then the run equals those
`d` invoke/pause events followed by the run continuing at try index
`t + d` (with `d` further clock reads consumed when a time budget is
configured). -/
theorem retryLoop_retry_prefix {α : Type} (cfg : Config) (task : Nat → TaskResult α)
    (clock : Nat → Int) (startTimeMs : Int) (p : Nat → Int) :
    ∀ (d t c fuel : Nat),
      (∀ j, j < d → (cfg.maxTries = 0 ∨ ((t + j : Nat) : Int) < cfg.maxTries)) →
      (∀ j, j < d → ∃ e, task (t + j) = .rejected e ∧ cfg.retryOn e = true) →
      (∀ j, j < d → computePause cfg.retryStrategy cfg.pauseMs (t + j) = .ok (p (t + j))) →
      (0 < cfg.maxTotalTimeMs → ∀ j, j < d →
        clock (c + j) - startTimeMs + p (t + j) ≤ cfg.maxTotalTimeMs) →
      retryLoop cfg task clock startTimeMs (fuel + d) t c =
        ((retryLoop cfg task clock startTimeMs fuel (t + d)
            (c + if 0 < cfg.maxTotalTimeMs then d else 0)).1,
          retryTrace p t d ++
            (retryLoop cfg task clock startTimeMs fuel (t + d)
              (c + if 0 < cfg.maxTotalTimeMs then d else 0)).2) := by
  intro d
  induction d with
  | zero =>
    intro t c fuel _ _ _ _
    simp [retryTrace]
  | succ d ih =>
    intro t c fuel hguard htask hp htime
    have hTries : cfg.maxTries = 0 ∨ ((t : Nat) : Int) < cfg.maxTries := by
      simpa using hguard 0 (by omega)
    obtain ⟨e, he, hr⟩ := htask 0 (by omega)
    rw [Nat.add_zero] at he
    have hpt : computePause cfg.retryStrategy cfg.pauseMs t = .ok (p t) := by
      simpa using hp 0 (by omega)
    have hguard1 : ∀ j, j < d → (cfg.maxTries = 0 ∨ ((t + 1 + j : Nat) : Int) < cfg.maxTries) := by
      intro j hj
      have h := hguard (j + 1) (by omega)
      have heq : t + (j + 1) = t + 1 + j := by omega
      rwa [heq] at h
    have htask1 : ∀ j, j < d → ∃ e2, task (t + 1 + j) = .rejected e2 ∧ cfg.retryOn e2 = true := by
      intro j hj
      have h := htask (j + 1) (by omega)
      have heq : t + (j + 1) = t + 1 + j := by omega
      rwa [heq] at h
    have hp1 : ∀ j, j < d →
        computePause cfg.retryStrategy cfg.pauseMs (t + 1 + j) = .ok (p (t + 1 + j)) := by
      intro j hj
      have h := hp (j + 1) (by omega)
      have heq : t + (j + 1) = t + 1 + j := by omega
      rwa [heq] at h
    by_cases hT : 0 < cfg.maxTotalTimeMs
    · have hok : ¬ cfg.maxTotalTimeMs < clock c - startTimeMs + p t := by
        have h := htime hT 0 (by omega)
        rw [Nat.add_zero, Nat.add_zero] at h
        omega
      have htime1 : 0 < cfg.maxTotalTimeMs → ∀ j, j < d →
          clock (c + 1 + j) - startTimeMs + p (t + 1 + j) ≤ cfg.maxTotalTimeMs := by
        intro _ j hj
        have h := htime hT (j + 1) (by omega)
        have heqc : c + (j + 1) = c + 1 + j := by omega
        have heqt : t + (j + 1) = t + 1 + j := by omega
        rwa [heqc, heqt] at h
      have hrec := ih (t + 1) (c + 1) fuel hguard1 htask1 hp1 htime1
      have hbool : ¬((true : Bool) = false) := by simp
      simp only [retryLoop, if_pos hTries, he, hr, hpt, if_pos hT, if_neg hok,
        if_neg hbool, Nat.add_eq]
      rw [hrec]
      have heqt : t + 1 + d = t + (d + 1) := by omega
      have heqc : c + 1 + (if 0 < cfg.maxTotalTimeMs then d else 0) =
          c + (if 0 < cfg.maxTotalTimeMs then d + 1 else 0) := by
        rw [if_pos hT, if_pos hT]; omega
      rw [heqt, heqc]
      simp only [retryTrace, List.cons_append]
      rw [if_pos hT]
    · have htime1 : 0 < cfg.maxTotalTimeMs → ∀ j, j < d →
          clock (c + j) - startTimeMs + p (t + 1 + j) ≤ cfg.maxTotalTimeMs := by
        intro h
        exact absurd h hT
      have hrec := ih (t + 1) c fuel hguard1 htask1 hp1 htime1
      have hbool : ¬((true : Bool) = false) := by simp
      simp only [retryLoop, if_pos hTries, he, hr, hpt, if_neg hT,
        if_neg hbool, Nat.add_eq]
      rw [hrec]
      have heqt : t + 1 + d = t + (d + 1) := by omega
      have heqc : c + (if 0 < cfg.maxTotalTimeMs then d else 0) =
          c + (if 0 < cfg.maxTotalTimeMs then d + 1 else 0) := by
        rw [if_neg hT, if_neg hT]
      rw [heqt, heqc]
      simp only [retryTrace, List.cons_append]
      rw [if_neg hT]

/-- Helper: a success outcome can only come from a task invocation that
resolved with that value (line 93 is the only success exit). -/
theorem success_only_from_resolved {α : Type} (cfg : Config) (task : Nat → TaskResult α)
    (clock : Nat → Int) (startTimeMs : Int) :
    ∀ (fuel t c : Nat) (w : α),
      (retryLoop cfg task clock startTimeMs fuel t c).1 = some (.success w) →
      ∃ j, task j = .resolved w := by
  intro fuel
  induction fuel with
  | zero =>
    intro t c w h
    simp [retryLoop] at h
  | succ f ih =>
    intro t c w h
    simp only [retryLoop] at h
    split at h
    · split at h
      · rename_i v heq
        simp at h
        exact ⟨t, by rw [heq, h]⟩
      · rename_i e heq
        split at h
        · simp at h
        · split at h
          · simp at h
          · split at h
            · split at h
              · simp at h
              · exact ih (t + 1) (c + 1) w h
            · exact ih (t + 1) c w h
    · simp at h

/-- Claim C2: with `retryStrategy = "exponential"` and base pause `pauseMs`,
the pause computed after the attempt with 0-based index `i` is
`pauseMs * 2 ^ i`; in particular the pause after the first attempt equals
`pauseMs` and the pause after the second equals `2 * pauseMs`. -/
theorem exponential_pause_is_pauseMs_mul_two_pow (p : Int) (i : Nat) :
    computePause (.str "exponential") p i = .ok (p * 2 ^ i) ∧
    computePause (.str "exponential") p 0 = .ok p ∧
    computePause (.str "exponential") p 1 = .ok (2 * p) := by
  refine ⟨?_, ?_, ?_⟩ <;> simp [computePause, mul_comm]

/-- Claim C7: a caller-supplied strategy function `f` is called with the
1-based number of tries so far, `i + 1`, its result is clamped to be
non-negative and used verbatim as the pause, and the configured `pauseMs`
is ignored on this path (the computed pause is the same for any two base
pauses). -/
theorem custom_strategy_pause_clamped_ignores_pauseMs (f : Int → Int) (p q : Int) (i : Nat) :
    computePause (.fn f) p i = .ok (max 0 (f ((i : Int) + 1))) ∧
    computePause (.fn f) p i = computePause (.fn f) q i := by
  exact ⟨rfl, rfl⟩

/-- Claim C8: the numeric configuration fields are clamped to 0 when
negative or absent before any use (never rejecting the call: unpacking is
total), and a run with no configuration at all is identical to a run with
all the defaults `pauseMs = 0, maxTries = 0, maxTotalTimeMs = 0`, the
linear strategy, and the default `retryOn` passed explicitly. -/
theorem numeric_params_clamped_and_defaults_idempotent :
    (∀ v : Int, v < 0 → clampNum (some v) = 0) ∧
    clampNum none = 0 ∧
    (∀ (α : Type) (task : Nat → TaskResult α) (clock : Nat → Int) (fuel : Nat),
      retryRun task {} clock fuel =
        retryRun task ⟨some 0, some 0, some 0, some defaultRetryOn, some (.str "linear")⟩
          clock fuel) := by
  refine ⟨fun v hv => ?_, rfl, fun α task clock fuel => rfl⟩
  simp [clampNum]
  omega

/-- Witness for C8 at concrete inputs. -/
theorem numeric_params_clamped_and_defaults_idempotent_witness :
    clampNum (some (-5)) = 0 ∧
    retryRun (fun i => TaskResult.resolved i) {} (fun _ => 0) 3 =
      retryRun (fun i => TaskResult.resolved i)
        ⟨some 0, some 0, some 0, some defaultRetryOn, some (.str "linear")⟩ (fun _ => 0) 3 :=
  ⟨numeric_params_clamped_and_defaults_idempotent.1 (-5) (by decide),
   numeric_params_clamped_and_defaults_idempotent.2.2 Nat
     (fun i => TaskResult.resolved i) (fun _ => 0) 3⟩

/-- Claim C1: with a positive time budget `maxTotalTimeMs`, after an
attempt that signals retry the engine computes the pause and the elapsed
time since the start timestamp; if `elapsed + actualPauseMs` exceeds the
budget it produces `LimitReached` immediately with no pause event,
otherwise it pauses for exactly `actualPauseMs` and proceeds to the next
attempt (next try index, next clock read). -/
theorem time_budget_checked_before_pause {α : Type} (cfg : Config)
    (task : Nat → TaskResult α) (clock : Nat → Int) (startTimeMs : Int)
    (fuel tryIdx clockIdx : Nat) (e : JsError) (p : Int)
    (hT : 0 < cfg.maxTotalTimeMs)
    (hTries : cfg.maxTries = 0 ∨ (tryIdx : Int) < cfg.maxTries)
    (hTask : task tryIdx = .rejected e)
    (hRetry : cfg.retryOn e = true)
    (hPause : computePause cfg.retryStrategy cfg.pauseMs tryIdx = .ok p) :
    (clock clockIdx - startTimeMs + p > cfg.maxTotalTimeMs →
      retryLoop cfg task clock startTimeMs (fuel + 1) tryIdx clockIdx =
        (some .limitReached, [.invoke tryIdx])) ∧
    (clock clockIdx - startTimeMs + p ≤ cfg.maxTotalTimeMs →
      retryLoop cfg task clock startTimeMs (fuel + 1) tryIdx clockIdx =
        ((retryLoop cfg task clock startTimeMs fuel (tryIdx + 1) (clockIdx + 1)).1,
          .invoke tryIdx :: .pause p ::
            (retryLoop cfg task clock startTimeMs fuel (tryIdx + 1) (clockIdx + 1)).2)) := by
  constructor
  · intro hOver
    simp only [retryLoop, if_pos hTries, hTask, hRetry, hPause, if_pos hT]
    simp [hOver]
  · intro hUnder
    simp only [retryLoop, if_pos hTries, hTask, hRetry, hPause, if_pos hT]
    simp [not_lt.mpr hUnder]

/-- Witness for C1 at concrete inputs: budget 10, linear pause 5, clock
reading 3 at read index 1, so elapsed + pause = 8 does not exceed the
budget and the engine pauses for 5 and continues. -/
theorem time_budget_checked_before_pause_witness :
    retryLoop (α := Nat) ⟨5, 0, 10, defaultRetryOn, .str "linear"⟩
        (fun _ => .rejected .retryMarker) (fun k => 3 * (k : Int)) 0 1 0 1 =
      ((retryLoop (α := Nat) ⟨5, 0, 10, defaultRetryOn, .str "linear"⟩
          (fun _ => .rejected .retryMarker) (fun k => 3 * (k : Int)) 0 0 1 2).1,
        .invoke 0 :: .pause 5 ::
          (retryLoop (α := Nat) ⟨5, 0, 10, defaultRetryOn, .str "linear"⟩
            (fun _ => .rejected .retryMarker) (fun k => 3 * (k : Int)) 0 0 1 2).2) :=
  (time_budget_checked_before_pause ⟨5, 0, 10, defaultRetryOn, .str "linear"⟩
      (fun _ => .rejected .retryMarker) (fun k => 3 * (k : Int)) 0 0 0 1 .retryMarker 5
      (by decide) (Or.inl rfl) rfl rfl rfl).2 (by decide)

/-- Claim C3: with `maxTries = N > 0`, when the loop is at its last
permitted try (index `N - 1`) and the task fails with an error the retry
predicate rejects, the run settles with that terminal error — the
terminal-failure exit fires before any limit check, so the outcome is not
`LimitReached` (regardless of any configured time budget). -/
theorem terminal_error_wins_on_last_try {α : Type} (cfg : Config)
    (task : Nat → TaskResult α) (clock : Nat → Int) (startTimeMs : Int)
    (fuel clockIdx N : Nat) (e : JsError)
    (hN : 0 < N) (hMax : cfg.maxTries = (N : Int))
    (hTask : task (N - 1) = .rejected e)
    (hTerm : cfg.retryOn e = false) :
    retryLoop cfg task clock startTimeMs (fuel + 1) (N - 1) clockIdx =
      (some (.failure e), [.invoke (N - 1)]) ∧
    some (Outcome.failure (α := α) e) ≠ some .limitReached := by
  have hTries : cfg.maxTries = 0 ∨ ((N - 1 : Nat) : Int) < cfg.maxTries := by
    right; rw [hMax]; omega
  constructor
  · simp only [retryLoop, if_pos hTries, hTask, hTerm]
    simp
  · simp

/-- Witness for C3: `maxTries = 1` and a task failing with a non-retryable
error on the single permitted try yields that error. -/
theorem terminal_error_wins_on_last_try_witness :
    retryLoop (α := Nat) ⟨0, 1, 0, defaultRetryOn, .str "linear"⟩
        (fun _ => .rejected (.custom 3)) (fun _ => 0) 0 (0 + 1) (1 - 1) 1 =
      (some (.failure (.custom 3)), [.invoke (1 - 1)]) :=
  (terminal_error_wins_on_last_try ⟨0, 1, 0, defaultRetryOn, .str "linear"⟩
    (fun _ => .rejected (.custom 3)) (fun _ => 0) 0 0 1 1 (.custom 3)
    (by decide) rfl rfl rfl).1

/-- Claim C9: a truthy `retryStrategy` that is neither the string "linear"
nor "exponential" nor a function is not rejected up front and does not
fall back to linear: a task that resolves on its first invocation still
succeeds, but on the first attempt that signals retry the value is invoked
as a function and the run settles with a runtime type error, which is none
of the three specified outcomes. -/
theorem invalid_strategy_invoked_as_function {α : Type} (cfg : Config)
    (task : Nat → TaskResult α) (clock : Nat → Int) (startTimeMs : Int)
    (fuel clockIdx : Nat) (s : String) (e : JsError) (v : α)
    (hStrat : cfg.retryStrategy = .str s)
    (hNotLin : s ≠ "linear") (hNotExp : s ≠ "exponential")
    (hTries : cfg.maxTries = 0 ∨ (0 : Int) < cfg.maxTries) :
    (task 0 = .rejected e → cfg.retryOn e = true →
      retryLoop cfg task clock startTimeMs (fuel + 1) 0 clockIdx =
        (some (.typeError s), [.invoke 0])) ∧
    (task 0 = .resolved v →
      retryLoop cfg task clock startTimeMs (fuel + 1) 0 clockIdx =
        (some (.success v), [.invoke 0])) ∧
    Outcome.typeError (α := α) s ≠ .limitReached ∧
    (∀ w : α, Outcome.typeError (α := α) s ≠ .success w) ∧
    (∀ er : JsError, Outcome.typeError (α := α) s ≠ .failure er) := by
  have hPause : computePause cfg.retryStrategy cfg.pauseMs 0 = .error s := by
    rw [hStrat]
    simp [computePause, hNotLin, hNotExp]
  refine ⟨fun hTask hRetry => ?_, fun hTask => ?_, by simp, by simp, by simp⟩
  · simp only [retryLoop, hTask, hRetry, hPause]
    rcases hTries with h | h <;> simp [h]
  · simp only [retryLoop, hTask]
    rcases hTries with h | h <;> simp [h]

/-- Witness for C9: with `retryStrategy = "fibonacci"` and a task that
signals retry on its first invocation, the run settles with the type
error, not with one of the three specified outcomes. -/
theorem invalid_strategy_invoked_as_function_witness :
    retryLoop (α := Nat) ⟨5, 0, 0, defaultRetryOn, .str "fibonacci"⟩
        (fun _ => .rejected .retryMarker) (fun _ => 0) 0 (3 + 1) 0 1 =
      (some (.typeError "fibonacci"), [.invoke 0]) :=
  (invalid_strategy_invoked_as_function ⟨5, 0, 0, defaultRetryOn, .str "fibonacci"⟩
    (fun _ => .rejected .retryMarker) (fun _ => 0) 0 3 1 "fibonacci" .retryMarker 0
    rfl (by decide) (by decide) (Or.inl rfl)).1 rfl rfl

/-- Claim C10: with `maxTries = N > 0` and the task signalling retry on
the last permitted try (index `N - 1`), the loop body still computes the
pause `p` for index `N - 1` and still performs the time-budget check —
with a time budget configured and exceeded the `LimitReached` outcome on
this last iteration comes from the time check with no pause taken; with
the budget not exceeded, or with no time budget, the engine sleeps for the
entire pause `p` (a pause event is recorded) before the loop exit produces
`LimitReached`. -/
theorem final_iteration_still_checks_time_and_pauses {α : Type} (cfg : Config)
    (task : Nat → TaskResult α) (clock : Nat → Int) (startTimeMs : Int)
    (fuel clockIdx N : Nat) (e : JsError) (p : Int)
    (hN : 0 < N) (hMax : cfg.maxTries = (N : Int))
    (hTask : task (N - 1) = .rejected e)
    (hRetry : cfg.retryOn e = true)
    (hPause : computePause cfg.retryStrategy cfg.pauseMs (N - 1) = .ok p) :
    (0 < cfg.maxTotalTimeMs → cfg.maxTotalTimeMs < clock clockIdx - startTimeMs + p →
      retryLoop cfg task clock startTimeMs (fuel + 2) (N - 1) clockIdx =
        (some .limitReached, [.invoke (N - 1)])) ∧
    (0 < cfg.maxTotalTimeMs → clock clockIdx - startTimeMs + p ≤ cfg.maxTotalTimeMs →
      retryLoop cfg task clock startTimeMs (fuel + 2) (N - 1) clockIdx =
        (some .limitReached, [.invoke (N - 1), .pause p])) ∧
    (cfg.maxTotalTimeMs = 0 →
      retryLoop cfg task clock startTimeMs (fuel + 2) (N - 1) clockIdx =
        (some .limitReached, [.invoke (N - 1), .pause p])) := by
  have hTries : cfg.maxTries = 0 ∨ ((N - 1 : Nat) : Int) < cfg.maxTries := by
    right; rw [hMax]; omega
  have hg2 : ¬(cfg.maxTries = 0 ∨ ((N - 1 : Nat) : Int) + 1 < cfg.maxTries) := by
    rw [hMax]; omega
  refine ⟨fun hT hOver => ?_, fun hT hUnder => ?_, fun hT0 => ?_⟩
  · simp only [retryLoop, if_pos hTries, hTask, hRetry, hPause, if_pos hT]
    simp [hOver]
  · simp only [retryLoop, if_pos hTries, hTask, hRetry, hPause, if_pos hT]
    simp [not_lt.mpr hUnder, hg2]
  · have hTn : ¬ (0 : Int) < cfg.maxTotalTimeMs := by rw [hT0]; omega
    simp only [retryLoop, if_pos hTries, hTask, hRetry, hPause, if_neg hTn]
    simp [hg2]

/-- Witness for C10: `maxTries = 1`, no time budget, linear pause 5; the
single permitted try signals retry and the engine still pauses for 5
before producing `LimitReached`. -/
theorem final_iteration_still_checks_time_and_pauses_witness :
    retryLoop (α := Nat) ⟨5, 1, 0, defaultRetryOn, .str "linear"⟩
        (fun _ => .rejected .retryMarker) (fun _ => 0) 0 (0 + 2) (1 - 1) 1 =
      (some .limitReached, [.invoke (1 - 1), .pause 5]) :=
  (final_iteration_still_checks_time_and_pauses ⟨5, 1, 0, defaultRetryOn, .str "linear"⟩
    (fun _ => .rejected .retryMarker) (fun _ => 0) 0 0 1 1 .retryMarker 5
    (by decide) rfl rfl rfl rfl).2.2 rfl

/-- Claim C4: with `maxTries = N > 0`, no time limit configured, a task
that signals retry on every invocation, and a strategy that computes a
pause at every index, the engine invokes the task exactly `N` times and
produces `LimitReached`; there is no `(N+1)`-th invocation (the whole
trace holds `N` invoke events). -/
theorem count_limit_exact_invocations {α : Type} (cfg : Config) (task : Nat → TaskResult α)
    (clock : Nat → Int) (p : Nat → Int) (N fuel : Nat)
    (hN : 0 < N) (hMax : cfg.maxTries = (N : Int)) (hTime : cfg.maxTotalTimeMs = 0)
    (htask : ∀ j, ∃ e, task j = .rejected e ∧ cfg.retryOn e = true)
    (hp : ∀ j, computePause cfg.retryStrategy cfg.pauseMs j = .ok (p j))
    (hFuel : N < fuel) :
    (retryWithConfig cfg task clock fuel).1 = some .limitReached ∧
    invokeCount (retryWithConfig cfg task clock fuel).2 = N := by
  obtain ⟨f, rfl⟩ : ∃ f, fuel = (f + 1) + N := ⟨fuel - N - 1, by omega⟩
  have hpre := retryLoop_retry_prefix cfg task clock (clock 0) p N 0 1 (f + 1)
    (fun j hj => Or.inr (by rw [hMax]; omega))
    (fun j _ => htask (0 + j))
    (fun j _ => hp (0 + j))
    (fun h => absurd h (by rw [hTime]; exact lt_irrefl 0))
  have hg : ¬(cfg.maxTries = 0 ∨ ((0 + N : Nat) : Int) < cfg.maxTries) := by
    rw [hMax]; omega
  have hstop : retryLoop cfg task clock (clock 0) (f + 1) (0 + N)
      (1 + if (0 : Int) < cfg.maxTotalTimeMs then N else 0) = (some .limitReached, []) := by
    simp only [retryLoop, if_neg hg]
  unfold retryWithConfig
  rw [hpre, hstop]
  simp [invokeCount_append, invokeCount_retryTrace, invokeCount]

/-- Witness for C4: `maxTries = 2`, always-retry task, no time limit:
exactly 2 invocations and `LimitReached`. -/
theorem count_limit_exact_invocations_witness :
    (retryWithConfig (α := Nat) ⟨5, 2, 0, defaultRetryOn, .str "linear"⟩
        (fun _ => .rejected .retryMarker) (fun _ => 0) 3).1 = some .limitReached ∧
    invokeCount (retryWithConfig (α := Nat) ⟨5, 2, 0, defaultRetryOn, .str "linear"⟩
        (fun _ => .rejected .retryMarker) (fun _ => 0) 3).2 = 2 :=
  count_limit_exact_invocations ⟨5, 2, 0, defaultRetryOn, .str "linear"⟩
    (fun _ => .rejected .retryMarker) (fun _ => 0) (fun _ => 5) 2 3
    (by decide) (by decide) rfl
    (fun _ => ⟨.retryMarker, rfl, rfl⟩) (fun _ => rfl) (by decide)

/-- Claim C5: for a task whose k-th invocation resolves with `v` after
retryable failures, where `k` is within `maxTries` (or `maxTries` is
unlimited) and the run reaches the k-th invocation (every earlier
time-budget check passes; with no time limit this is vacuous), the engine
invokes the task exactly `k` times and produces `Success(v)`; the trace
ends at the k-th invoke event, so no pause or invocation follows the
successful attempt; and a success outcome only ever comes from a task
invocation that resolved with that value. -/
theorem success_short_circuits {α : Type} (cfg : Config) (task : Nat → TaskResult α)
    (clock : Nat → Int) (p : Nat → Int) (k fuel : Nat) (v : α)
    (hk : 0 < k)
    (hTries : cfg.maxTries = 0 ∨ (k : Int) ≤ cfg.maxTries)
    (hBefore : ∀ j, j < k - 1 → ∃ e, task j = .rejected e ∧ cfg.retryOn e = true)
    (hp : ∀ j, j < k - 1 → computePause cfg.retryStrategy cfg.pauseMs j = .ok (p j))
    (hTime : 0 < cfg.maxTotalTimeMs → ∀ j, j < k - 1 →
      clock (1 + j) - clock 0 + p j ≤ cfg.maxTotalTimeMs)
    (hSucc : task (k - 1) = .resolved v)
    (hFuel : k ≤ fuel) :
    (retryWithConfig cfg task clock fuel).1 = some (.success v) ∧
    (retryWithConfig cfg task clock fuel).2 =
      retryTrace p 0 (k - 1) ++ [.invoke (k - 1)] ∧
    invokeCount (retryWithConfig cfg task clock fuel).2 = k ∧
    (∀ (f t c : Nat) (w : α),
      (retryLoop cfg task clock (clock 0) f t c).1 = some (.success w) →
      ∃ j, task j = .resolved w) := by
  obtain ⟨f, rfl⟩ : ∃ f, fuel = (f + 1) + (k - 1) := ⟨fuel - k, by omega⟩
  have hpre := retryLoop_retry_prefix cfg task clock (clock 0) p (k - 1) 0 1 (f + 1)
    (fun j hj => by
      rcases hTries with h | h
      · exact Or.inl h
      · exact Or.inr (by omega))
    (fun j hj => by simpa using hBefore j hj)
    (fun j hj => by simpa using hp j hj)
    (fun hT j hj => by simpa using hTime hT j hj)
  have hgl : cfg.maxTries = 0 ∨ ((0 + (k - 1) : Nat) : Int) < cfg.maxTries := by
    rcases hTries with h | h
    · exact Or.inl h
    · exact Or.inr (by omega)
  have hSucc0 : task (0 + (k - 1)) = .resolved v := by simpa using hSucc
  have hstep : retryLoop cfg task clock (clock 0) (f + 1) (0 + (k - 1))
      (1 + if (0 : Int) < cfg.maxTotalTimeMs then k - 1 else 0) =
      (some (.success v), [.invoke (0 + (k - 1))]) := by
    simp only [retryLoop, if_pos hgl, hSucc0]
  unfold retryWithConfig
  rw [hpre, hstep]
  refine ⟨rfl, by simp, ?_, success_only_from_resolved cfg task clock (clock 0)⟩
  simp [invokeCount_append, invokeCount_retryTrace, invokeCount]
  omega

/-- Witness for C5: linear pause 5, unlimited tries, no time limit, task
failing retryably once then resolving with 42: 2 invocations and
`Success 42`. -/
theorem success_short_circuits_witness :
    (retryWithConfig (α := Nat) ⟨5, 0, 0, defaultRetryOn, .str "linear"⟩
        (fun i => if i = 0 then .rejected .retryMarker else .resolved 42) (fun _ => 0) 2).1 =
      some (.success 42) ∧
    invokeCount (retryWithConfig (α := Nat) ⟨5, 0, 0, defaultRetryOn, .str "linear"⟩
        (fun i => if i = 0 then .rejected .retryMarker else .resolved 42) (fun _ => 0) 2).2 =
      2 := by
  have h := success_short_circuits ⟨5, 0, 0, defaultRetryOn, .str "linear"⟩
    (fun i => if i = 0 then .rejected .retryMarker else .resolved 42) (fun _ => 0)
    (fun _ => 5) 2 2 42 (by decide) (Or.inl rfl)
    (fun j hj => by
      cases j with
      | zero => exact ⟨.retryMarker, rfl, rfl⟩
      | succ m => exact absurd (Nat.lt_of_succ_lt_succ hj) (Nat.not_lt_zero m))
    (fun j _ => rfl)
    (fun hT => absurd hT (by decide))
    rfl (by decide)
  exact ⟨h.1, h.2.2.1⟩

/-- Claim C6: for a task whose k-th invocation is rejected with an error
`e` that `retryOn` classifies as terminal, after retryable failures,
where `k` is within `maxTries` (or unlimited) and the run reaches the
k-th invocation (every earlier time-budget check passes), the engine
invokes the task exactly `k` times and produces `Failure(e)` carrying the
very same error value, with no pause after the failing attempt. -/
theorem terminal_error_propagated_unchanged {α : Type} (cfg : Config)
    (task : Nat → TaskResult α) (clock : Nat → Int) (p : Nat → Int)
    (k fuel : Nat) (e : JsError)
    (hk : 0 < k)
    (hTries : cfg.maxTries = 0 ∨ (k : Int) ≤ cfg.maxTries)
    (hBefore : ∀ j, j < k - 1 → ∃ e2, task j = .rejected e2 ∧ cfg.retryOn e2 = true)
    (hp : ∀ j, j < k - 1 → computePause cfg.retryStrategy cfg.pauseMs j = .ok (p j))
    (hTime : 0 < cfg.maxTotalTimeMs → ∀ j, j < k - 1 →
      clock (1 + j) - clock 0 + p j ≤ cfg.maxTotalTimeMs)
    (hFail : task (k - 1) = .rejected e)
    (hTerm : cfg.retryOn e = false)
    (hFuel : k ≤ fuel) :
    (retryWithConfig cfg task clock fuel).1 = some (.failure e) ∧
    (retryWithConfig cfg task clock fuel).2 =
      retryTrace p 0 (k - 1) ++ [.invoke (k - 1)] ∧
    invokeCount (retryWithConfig cfg task clock fuel).2 = k := by
  obtain ⟨f, rfl⟩ : ∃ f, fuel = (f + 1) + (k - 1) := ⟨fuel - k, by omega⟩
  have hpre := retryLoop_retry_prefix cfg task clock (clock 0) p (k - 1) 0 1 (f + 1)
    (fun j hj => by
      rcases hTries with h | h
      · exact Or.inl h
      · exact Or.inr (by omega))
    (fun j hj => by simpa using hBefore j hj)
    (fun j hj => by simpa using hp j hj)
    (fun hT j hj => by simpa using hTime hT j hj)
  have hgl : cfg.maxTries = 0 ∨ ((0 + (k - 1) : Nat) : Int) < cfg.maxTries := by
    rcases hTries with h | h
    · exact Or.inl h
    · exact Or.inr (by omega)
  have hFail0 : task (0 + (k - 1)) = .rejected e := by simpa using hFail
  have hstep : retryLoop cfg task clock (clock 0) (f + 1) (0 + (k - 1))
      (1 + if (0 : Int) < cfg.maxTotalTimeMs then k - 1 else 0) =
      (some (.failure e), [.invoke (0 + (k - 1))]) := by
    simp only [retryLoop, if_pos hgl, hFail0, hTerm]
    simp
  unfold retryWithConfig
  rw [hpre, hstep]
  refine ⟨rfl, by simp, ?_⟩
  simp [invokeCount_append, invokeCount_retryTrace, invokeCount]
  omega

/-- Witness for C6: unlimited tries, no time limit, task failing retryably
once then terminally with `custom 9`: 2 invocations and that very error. -/
theorem terminal_error_propagated_unchanged_witness :
    (retryWithConfig (α := Nat) ⟨0, 0, 0, defaultRetryOn, .str "linear"⟩
        (fun i => if i = 0 then .rejected .retryMarker else .rejected (.custom 9))
        (fun _ => 0) 2).1 = some (.failure (.custom 9)) ∧
    invokeCount (retryWithConfig (α := Nat) ⟨0, 0, 0, defaultRetryOn, .str "linear"⟩
        (fun i => if i = 0 then .rejected .retryMarker else .rejected (.custom 9))
        (fun _ => 0) 2).2 = 2 := by
  have h := terminal_error_propagated_unchanged (α := Nat)
    ⟨0, 0, 0, defaultRetryOn, .str "linear"⟩
    (fun i => if i = 0 then .rejected .retryMarker else .rejected (.custom 9)) (fun _ => 0)
    (fun _ => 0) 2 2 (.custom 9) (by decide) (Or.inl rfl)
    (fun j hj => by
      cases j with
      | zero => exact ⟨.retryMarker, rfl, rfl⟩
      | succ m => exact absurd (Nat.lt_of_succ_lt_succ hj) (Nat.not_lt_zero m))
    (fun j _ => rfl)
    (fun hT => absurd hT (by decide))
    rfl rfl (by decide)
  exact ⟨h.1, h.2.2⟩

end RetryRetry
